import Mathlib

/-!
Shallow embedding of `src/mustang_align/mustang_align.py` (class `MustangAnalyzer`):
an all-vs-all batch orchestrator that pairs every PDB file in a directory with
every PDB file (itertools.product with repeat=2), invokes the external MUSTANG
tool once per pair, validates the two expected output artifacts, and moves them
into canonical per-kind output directories.

Modelling conventions:
- `pathlib.Path` values passed around as structure inputs are modelled by
  `PdbPath` (parent directory, stem, suffix); plain output paths are `String`,
  with `pjoin` modelling the `/` operator of `pathlib`.
- The filesystem is an explicit state `FS` (a list of file paths and a list of
  directory paths); `os.path.exists`, `shutil.move` and `Path.mkdir` become
  pure functions on `FS`.
- The external subprocess is an oracle: each job is given a `JobOutcome`
  describing whether the executable exists, the exit status, the captured
  stderr, and the files the tool wrote before exiting.
- Side effects that the claims talk about (directory creation order, log level,
  subprocess argument vectors, pool start) are recorded in an event trace.
- Exceptions are `Except`: `MustangError` raised by `_run_mustang` is the
  `.error` case, caught by `_process_pair`.
- The worker pool (`Pool.imap_unordered`) is linearised: jobs run in submission
  order over the shared filesystem state.  The claims checked here do not
  depend on completion order.
-/

namespace Mustang

/-- A structure input file as `pathlib.Path` exposes it to this module:
its parent directory, its stem (base name without extension) and its suffix. -/
structure PdbPath where
  parent : String
  stem : String
  suffix : String
deriving DecidableEq

/-- Embeds `str(path)` for an input file. -/
def PdbPath.toStr (p : PdbPath) : String :=
  p.parent ++ "/" ++ p.stem ++ p.suffix

/-- The `/` operator of `pathlib.Path`. -/
def pjoin (dir name : String) : String :=
  dir ++ "/" ++ name

/-- Filesystem state: the set of existing regular files and directories. -/
structure FS where
  files : List String
  dirs : List String
deriving DecidableEq

/-- Embeds `os.path.exists`, restricted to regular files. -/
def FS.pathExists (fs : FS) (p : String) : Prop :=
  p ∈ fs.files

instance (fs : FS) (p : String) : Decidable (fs.pathExists p) :=
  inferInstanceAs (Decidable (p ∈ fs.files))

/-- Embeds `Path.mkdir(parents=True, exist_ok=True)`. -/
def FS.mkdir (fs : FS) (d : String) : FS :=
  { fs with dirs := if d ∈ fs.dirs then fs.dirs else fs.dirs ++ [d] }

/-- Files written by the external tool during one invocation. -/
def FS.addFiles (fs : FS) (ps : List String) : FS :=
  { fs with files := fs.files ++ ps }

/-- Embeds `shutil.move src dst`: the source entry disappears, the destination
appears (overwriting any previous entry at the destination). -/
def FS.move (fs : FS) (src dst : String) : FS :=
  { fs with files := (fs.files.filter (fun f => f != src && f != dst)) ++ [dst] }

/-- Outcome of one `subprocess.run` call, as the worker observes it:
either the executable was found and the process ran (with the given exit
status, captured stderr, and files it wrote), or `FileNotFoundError`. -/
inductive JobOutcome where
  | runs (exitZero : Bool) (stderr : String) (produced : List String)
  | execMissing
deriving DecidableEq

/-- Observable side effects recorded by the orchestrator. -/
inductive Event where
  | mkdirEvt (d : String)
  | enumerate (dir : String)
  | logWarning (msg : String)
  | logError (msg : String)
  | invoke (cmd : List String)
  | poolStart (workers : Int)
deriving DecidableEq

/-- Embeds `int(x)` of Python on a real value: truncation toward zero. -/
def pyInt (x : ℚ) : Int :=
  if x < 0 then ⌈x⌉ else ⌊x⌋

/-- The fields `MustangAnalyzer.__init__` computes and stores. -/
structure MustangAnalyzer where
  mustang_path : String
  alignment_format : String
  output_extension : String
  cpu_cores : Int
deriving DecidableEq

/-- Embeds `MustangAnalyzer.__init__(mustang_path, alignment_format, cpu_percentage)`
with `cpu_count()` supplied explicitly:
`output_extension` is `afasta` when the format is `fasta`, else the format
itself; `cpu_cores = max(1, int(cpu_count * (cpu_percentage / 100)))`. -/
def MustangAnalyzer.init (mustang_path : String) (alignment_format : String)
    (cpu_count : ℕ) (cpu_percentage : ℚ) : MustangAnalyzer :=
  { mustang_path := mustang_path
    alignment_format := alignment_format
    output_extension := if alignment_format = "fasta" then "afasta" else alignment_format
    cpu_cores := max 1 (pyInt ((cpu_count : ℚ) * (cpu_percentage / 100))) }

/-- Embeds `itertools.product(l, repeat=2)`: all ordered pairs in row-major order. -/
def productPairs (l : List α) : List (α × α) :=
  go l
where
  go : List α → List (α × α)
    | [] => []
    | x :: xs => l.map (fun y => (x, y)) ++ go xs

/-- Embeds `MustangAnalyzer._run_mustang(self, [pdb1, pdb2], output_dir,
pdb_output_dir, fasta_output_dir)`.  Returns the emitted events together with
either `.error msg` (the raised `MustangError`) or `.ok (flag, fs)` (the
returned boolean and the filesystem after the call).

Line-by-line: build `output_identifier` and the command list; run the
subprocess; on `FileNotFoundError` raise `MustangError`; on
`CalledProcessError` (non-zero exit with `check=True`) log the stderr and
return `False`; otherwise require both `<output_identifier>.<output_extension>`
and `<output_identifier>.pdb` to exist, move the first to
`fasta_output_dir/<stem1>_<stem2>.fasta` and the second to
`pdb_output_dir/<stem1>_<stem2>.pdb` and return `True`, or log an error and
return `False` when either is missing. -/
def run_mustang (a : MustangAnalyzer) (pdb1 pdb2 : PdbPath)
    (output_dir pdb_output_dir fasta_output_dir : String)
    (outcome : JobOutcome) (fs : FS) :
    List Event × Except String (Bool × FS) :=
  let output_identifier := pjoin output_dir (pdb1.stem ++ "_" ++ pdb2.stem)
  let command := [a.mustang_path, "-i", pdb1.toStr, pdb2.toStr,
                  "-o", output_identifier, "-F", a.alignment_format]
  match outcome with
  | .execMissing =>
      ([Event.invoke command],
       .error ("MUSTANG executable not found at " ++ a.mustang_path))
  | .runs exitZero stderr produced =>
      let fs1 := fs.addFiles produced
      if exitZero then
        let expected_afasta := output_identifier ++ "." ++ a.output_extension
        let expected_pdb := output_identifier ++ ".pdb"
        if fs1.pathExists expected_afasta ∧ fs1.pathExists expected_pdb then
          let fasta_dest := pjoin fasta_output_dir (pdb1.stem ++ "_" ++ pdb2.stem ++ ".fasta")
          let fs2 := fs1.move expected_afasta fasta_dest
          let pdb_dest := pjoin pdb_output_dir (pdb1.stem ++ "_" ++ pdb2.stem ++ ".pdb")
          let fs3 := fs2.move expected_pdb pdb_dest
          ([Event.invoke command], .ok (true, fs3))
        else
          ([Event.invoke command,
            Event.logError ("MUSTANG did not produce the expected output files for "
              ++ output_identifier)],
           .ok (false, fs1))
      else
        ([Event.invoke command,
          Event.logError ("MUSTANG failed for " ++ pdb1.toStr ++ " and "
            ++ pdb2.toStr ++ ": " ++ stderr)],
         .ok (false, fs1))

/-- Embeds `MustangAnalyzer._process_pair`: delegates to `_run_mustang` and catches
every exception, logging it and returning `False`. -/
def process_pair (a : MustangAnalyzer) (pdb1 pdb2 : PdbPath)
    (output_dir pdb_output_dir fasta_output_dir : String)
    (outcome : JobOutcome) (fs : FS) : List Event × Bool × FS :=
  match run_mustang a pdb1 pdb2 output_dir pdb_output_dir fasta_output_dir outcome fs with
  | (tr, .ok (b, fs1)) => (tr, b, fs1)
  | (tr, .error e) =>
      (tr ++ [Event.logError ("Error processing " ++ pdb1.toStr ++ " and "
        ++ pdb2.toStr ++ ": " ++ e)],
       false, fs)

/-- The pool loop of `run_all_vs_all`: each pair job runs
`_process_pair_wrapper` (hence `_process_pair`), its boolean result is
collected.  `imap_unordered` is linearised to submission order. -/
def runJobs (a : MustangAnalyzer)
    (output_dir pdb_output_dir fasta_output_dir : String)
    (env : PdbPath → PdbPath → JobOutcome) :
    List (PdbPath × PdbPath) → FS → List Event × List Bool × FS
  | [], fs => ([], [], fs)
  | (p1, p2) :: rest, fs =>
      let r := process_pair a p1 p2 output_dir pdb_output_dir fasta_output_dir (env p1 p2) fs
      let rec_ := runJobs a output_dir pdb_output_dir fasta_output_dir env rest r.2.2
      (r.1 ++ rec_.1, r.2.1 :: rec_.2.1, rec_.2.2)

/-- Embeds the glob over the directory contents `input_files`:
keeps the entries whose suffix is `.pdb`. -/
def globPdb (input_files : List PdbPath) : List PdbPath :=
  input_files.filter (fun f => f.suffix == ".pdb")

/-- Embeds `MustangAnalyzer.run_all_vs_all(self, input_dir, output_dir)`, with the
contents of the input directory and the per-job subprocess behaviour supplied
explicitly.  Creates `output_dir`, `output_dir/pdb_outputs` and
`output_dir/pairwise_fastas`; globs `*.pdb`; warns and returns when none are
found; otherwise builds `itertools.product(pdb_files, repeat=2)` and maps the
worker over every pair, collecting the boolean results. -/
def run_all_vs_all (a : MustangAnalyzer) (input_dir : String)
    (input_files : List PdbPath) (output_dir : String)
    (env : PdbPath → PdbPath → JobOutcome) (fs : FS) :
    List Event × List Bool × FS :=
  let pdb_output_dir := pjoin output_dir "pdb_outputs"
  let fasta_output_dir := pjoin output_dir "pairwise_fastas"
  let fs0 := ((fs.mkdir output_dir).mkdir pdb_output_dir).mkdir fasta_output_dir
  let setupTrace := [Event.mkdirEvt output_dir, Event.mkdirEvt pdb_output_dir,
                     Event.mkdirEvt fasta_output_dir, Event.enumerate input_dir]
  let pdb_files := globPdb input_files
  if pdb_files.isEmpty then
    (setupTrace ++ [Event.logWarning ("No PDB files found in " ++ input_dir)], [], fs0)
  else
    let pairs := productPairs pdb_files
    let r := runJobs a output_dir pdb_output_dir fasta_output_dir env pairs fs0
    (setupTrace ++ [Event.poolStart a.cpu_cores] ++ r.1, r.2.1, r.2.2)

/-- Recognises a subprocess-invocation event. -/
def isInvoke : Event → Bool
  | .invoke _ => true
  | _ => false

/-- Recognises a worker-pool start event. -/
def isPoolStart : Event → Bool
  | .poolStart _ => true
  | _ => false

/-- Severity of an emitted log record. -/
inductive LogLevel where
  | warning
  | error
deriving DecidableEq

/-- Modelled from the spec: the ResultAggregator.  The orchestration variant
holding the `expected_fastas` and `actual_fastas` counters is not under
`src/`; the module provided there collects the pool results without
aggregating them.  Per the spec contract, the aggregator sums the success
flags across all JobResults, compares the sum to the expected job count, and
logs a warning (not an error) when the two counts differ; it is purely
observational. -/
def aggregate_results (results : List Bool) (expected : ℕ) :
    ℕ × List (LogLevel × String) :=
  let actual := (results.filter (fun b => b)).length
  (actual,
   if actual = expected then []
   else [(LogLevel.warning,
          "Expected " ++ toString expected ++ " alignments, but produced "
            ++ toString actual)])

/-! ### Concrete fixtures (the end-to-end scenarios of the spec) -/

/-- First structure file of the two-structure input directory. -/
def aFile : PdbPath := ⟨"in", "a", ".pdb"⟩

/-- Second structure file of the two-structure input directory. -/
def bFile : PdbPath := ⟨"in", "b", ".pdb"⟩

/-- An analyzer with the default configuration: fasta format, 25 percent of
four available parallel-execution units. -/
def defaultAnalyzer : MustangAnalyzer :=
  MustangAnalyzer.init "/bin/mustang" "fasta" 4 25

/-- Environment in which every invocation exits 0 and writes both expected
artifacts next to the output stem. -/
def allSucceedEnv : PdbPath → PdbPath → JobOutcome := fun p q =>
  JobOutcome.runs true ""
    [pjoin "out" (p.stem ++ "_" ++ q.stem) ++ ".afasta",
     pjoin "out" (p.stem ++ "_" ++ q.stem) ++ ".pdb"]

/-- Environment of scenario C: the (a, b) invocation exits non-zero with
diagnostic text on stderr; every other invocation succeeds. -/
def oneFailsEnv : PdbPath → PdbPath → JobOutcome := fun p q =>
  if p.stem = "a" ∧ q.stem = "b" then JobOutcome.runs false "boom" []
  else allSucceedEnv p q

/-! ### Helper lemmas -/

theorem productPairs_go_length (l m : List α) :
    (productPairs.go l m).length = l.length * m.length := by
  induction m with
  | nil => simp [productPairs.go]
  | cons x xs ih =>
      simp only [productPairs.go, List.length_append, List.length_map, ih,
        List.length_cons]
      ring

theorem productPairs_length (l : List α) :
    (productPairs l).length = l.length ^ 2 := by
  simp [productPairs, productPairs_go_length, sq]

theorem productPairs_go_mem (l m : List α) (x y : α) :
    (x, y) ∈ productPairs.go l m ↔ x ∈ m ∧ y ∈ l := by
  induction m with
  | nil => simp [productPairs.go]
  | cons z zs ih =>
      simp only [productPairs.go, List.mem_append, List.mem_map, ih,
        List.mem_cons, Prod.mk.injEq]
      constructor
      · rintro (⟨w, hw, hx, hy⟩ | ⟨hx, hy⟩)
        · exact ⟨Or.inl hx.symm, hy ▸ hw⟩
        · exact ⟨Or.inr hx, hy⟩
      · rintro ⟨hx | hx, hy⟩
        · exact Or.inl ⟨y, hy, hx.symm, rfl⟩
        · exact Or.inr ⟨hx, hy⟩

theorem productPairs_mem (l : List α) (x y : α) :
    (x, y) ∈ productPairs l ↔ x ∈ l ∧ y ∈ l :=
  productPairs_go_mem l l x y

theorem runJobs_length (a : MustangAnalyzer)
    (od pd fd : String) (env : PdbPath → PdbPath → JobOutcome)
    (ps : List (PdbPath × PdbPath)) (fs : FS) :
    (runJobs a od pd fd env ps fs).2.1.length = ps.length := by
  induction ps generalizing fs with
  | nil => simp [runJobs]
  | cons p rest ih => simp [runJobs, ih]

theorem run_mustang_dirs (a : MustangAnalyzer) (p1 p2 : PdbPath)
    (od pd fd : String) (outcome : JobOutcome) (fs : FS) (b : Bool) (fs1 : FS)
    (h : (run_mustang a p1 p2 od pd fd outcome fs).2 = .ok (b, fs1)) :
    fs1.dirs = fs.dirs := by
  cases outcome with
  | execMissing => simp [run_mustang] at h
  | runs exitZero stderr produced =>
      simp only [run_mustang] at h
      split at h
      · split at h
        · simp only [Except.ok.injEq, Prod.mk.injEq] at h
          rw [← h.2]
          rfl
        · simp only [Except.ok.injEq, Prod.mk.injEq] at h
          rw [← h.2]
          rfl
      · simp only [Except.ok.injEq, Prod.mk.injEq] at h
        rw [← h.2]
        rfl

theorem process_pair_dirs (a : MustangAnalyzer) (p1 p2 : PdbPath)
    (od pd fd : String) (outcome : JobOutcome) (fs : FS) :
    (process_pair a p1 p2 od pd fd outcome fs).2.2.dirs = fs.dirs := by
  unfold process_pair
  split
  · rename_i tr b fs1 h
    exact run_mustang_dirs a p1 p2 od pd fd outcome fs b fs1
      (by rw [h])
  · rfl

theorem runJobs_dirs (a : MustangAnalyzer)
    (od pd fd : String) (env : PdbPath → PdbPath → JobOutcome)
    (ps : List (PdbPath × PdbPath)) (fs : FS) :
    (runJobs a od pd fd env ps fs).2.2.dirs = fs.dirs := by
  induction ps generalizing fs with
  | nil => rfl
  | cons p rest ih =>
      simp only [runJobs]
      rw [ih]
      exact process_pair_dirs a p.1 p.2 od pd fd (env p.1 p.2) fs

theorem mem_mkdir_self (fs : FS) (d : String) : d ∈ (fs.mkdir d).dirs := by
  simp only [FS.mkdir]
  split
  · assumption
  · simp

theorem mem_mkdir_of_mem (fs : FS) (d x : String) (h : x ∈ fs.dirs) :
    x ∈ (fs.mkdir d).dirs := by
  simp only [FS.mkdir]
  split
  · exact h
  · exact List.mem_append_left _ h

theorem max_one_pyInt (x : ℚ) : max 1 (pyInt x) = max 1 ⌊x⌋ := by
  unfold pyInt
  split
  · rename_i h
    have h1 : ⌈x⌉ ≤ (0 : ℤ) := by
      rw [Int.ceil_le]
      exact_mod_cast h.le
    have h2 : ⌊x⌋ ≤ (0 : ℤ) := Int.floor_nonpos h.le
    rw [max_eq_left (h1.trans (by norm_num)), max_eq_left (h2.trans (by norm_num))]
  · rfl

theorem data_getLast?_append (u v : String) (c : Char)
    (hv : v.data.getLast? = some c) : (u ++ v).data.getLast? = some c := by
  rw [String.data_append, List.getLast?_append, hv]
  rfl

theorem pjoin_data_getLast? (d x : String) (c : Char)
    (h : x.data.getLast? = some c) : (pjoin d x).data.getLast? = some c :=
  data_getLast?_append (d ++ "/") x c h

theorem ne_of_last_char (s t : String) (c d : Char)
    (hc : s.data.getLast? = some c) (hd : t.data.getLast? = some d)
    (hcd : c ≠ d) : s ≠ t := by
  intro h
  rw [h, hd] at hc
  exact hcd (Option.some.inj hc).symm

theorem countTrue_eq_sumFlags (l : List Bool) :
    (l.filter (fun b => b)).length
      = (l.map (fun b => if b then 1 else 0)).sum := by
  induction l with
  | nil => rfl
  | cons b bs ih =>
      cases b <;> simp [List.filter, ih, Nat.add_comm]

/-- Unfolding equation of `_run_mustang` when the subprocess exits 0: the
result depends only on the existence check over the post-invocation
filesystem. -/
theorem run_mustang_success_eq (a : MustangAnalyzer) (p1 p2 : PdbPath)
    (od pd fd stderr : String) (produced : List String) (fs : FS) :
    run_mustang a p1 p2 od pd fd (.runs true stderr produced) fs =
      (if (fs.addFiles produced).pathExists
            (pjoin od (p1.stem ++ "_" ++ p2.stem) ++ "." ++ a.output_extension) ∧
          (fs.addFiles produced).pathExists
            (pjoin od (p1.stem ++ "_" ++ p2.stem) ++ ".pdb") then
         ([Event.invoke [a.mustang_path, "-i", p1.toStr, p2.toStr,
            "-o", pjoin od (p1.stem ++ "_" ++ p2.stem), "-F", a.alignment_format]],
          .ok (true,
            ((fs.addFiles produced).move
               (pjoin od (p1.stem ++ "_" ++ p2.stem) ++ "." ++ a.output_extension)
               (pjoin fd (p1.stem ++ "_" ++ p2.stem ++ ".fasta"))).move
              (pjoin od (p1.stem ++ "_" ++ p2.stem) ++ ".pdb")
              (pjoin pd (p1.stem ++ "_" ++ p2.stem ++ ".pdb"))))
       else
         ([Event.invoke [a.mustang_path, "-i", p1.toStr, p2.toStr,
            "-o", pjoin od (p1.stem ++ "_" ++ p2.stem), "-F", a.alignment_format],
           Event.logError ("MUSTANG did not produce the expected output files for "
             ++ pjoin od (p1.stem ++ "_" ++ p2.stem))],
          .ok (false, fs.addFiles produced))) := rfl

/-- Unfolding equation of `_process_pair` when the subprocess exits non-zero:
`CalledProcessError` is caught inside `_run_mustang`, the stderr text is
logged, and the job returns `False` with no exception reaching the caller. -/
theorem process_pair_nonzero_eq (a : MustangAnalyzer) (p1 p2 : PdbPath)
    (od pd fd stderr : String) (produced : List String) (fs : FS) :
    process_pair a p1 p2 od pd fd (.runs false stderr produced) fs =
      ([Event.invoke [a.mustang_path, "-i", p1.toStr, p2.toStr,
         "-o", pjoin od (p1.stem ++ "_" ++ p2.stem), "-F", a.alignment_format],
        Event.logError ("MUSTANG failed for " ++ p1.toStr ++ " and "
          ++ p2.toStr ++ ": " ++ stderr)],
       false, fs.addFiles produced) := rfl

/-- Every worker trace holds exactly one subprocess invocation, whatever the
outcome. -/
theorem run_mustang_invoke_filter (a : MustangAnalyzer) (p1 p2 : PdbPath)
    (od pd fd : String) (outcome : JobOutcome) (fs : FS) :
    (run_mustang a p1 p2 od pd fd outcome fs).1.filter isInvoke =
      [Event.invoke [a.mustang_path, "-i", p1.toStr, p2.toStr,
        "-o", pjoin od (p1.stem ++ "_" ++ p2.stem), "-F", a.alignment_format]] := by
  cases outcome with
  | execMissing => rfl
  | runs exitZero stderr produced =>
      cases exitZero with
      | false => rfl
      | true =>
          rw [run_mustang_success_eq]
          split
          · rfl
          · rfl

/-! ### Claim theorems -/

/-- Claim C1: for an input directory whose PDB-matching contents are the N
files `globPdb input_files`, the job set generated by `run_all_vs_all` is
the full ordered cross product with repetition: exactly N² jobs are
dispatched (one boolean result each), and a pair (x, y) is in the generated
pair list if and only if both x and y are input files — so every ordered
pair, including every self-pair (x, x), is present and none is filtered
out. -/
theorem all_vs_all_generates_full_cross_product (a : MustangAnalyzer)
    (input_dir : String) (input_files : List PdbPath) (output_dir : String)
    (env : PdbPath → PdbPath → JobOutcome) (fs : FS)
    (h : globPdb input_files ≠ []) :
    (run_all_vs_all a input_dir input_files output_dir env fs).2.1.length
        = (globPdb input_files).length ^ 2 ∧
    ∀ x y : PdbPath, ((x, y) ∈ productPairs (globPdb input_files) ↔
        (x ∈ globPdb input_files ∧ y ∈ globPdb input_files)) := by
  constructor
  · simp only [run_all_vs_all]
    rw [if_neg (fun hc => h (List.isEmpty_iff.mp hc))]
    simp [runJobs_length, productPairs_length]
  · intro x y
    exact productPairs_mem _ x y

/-- Witness for C1: a two-file input directory yields 2² = 4 job results. -/
theorem all_vs_all_generates_full_cross_product_witness :
    (run_all_vs_all defaultAnalyzer "in" [aFile, bFile] "out" allSucceedEnv
        ⟨[], []⟩).2.1.length
      = (globPdb [aFile, bFile]).length ^ 2 :=
  (all_vs_all_generates_full_cross_product defaultAnalyzer "in" [aFile, bFile]
    "out" allSucceedEnv ⟨[], []⟩ (by decide)).1

/-- Claim C9: for every available-parallel-unit count C ≥ 1 and configured
percentage p, the concurrency limit stored by `MustangAnalyzer.init` equals
max(1, floor(C * p / 100)): Python's truncating `int` coincides with the
floor here because whenever the scaled value is negative both truncation and
floor are clamped to one. -/
theorem cpu_cores_is_clamped_floor (mustang_path alignment_format : String)
    (cpu_count : ℕ) (cpu_percentage : ℚ) (h : 1 ≤ cpu_count) :
    (MustangAnalyzer.init mustang_path alignment_format cpu_count
        cpu_percentage).cpu_cores
      = max 1 ⌊(cpu_count : ℚ) * cpu_percentage / 100⌋ := by
  unfold MustangAnalyzer.init
  dsimp only
  rw [max_one_pyInt, mul_div_assoc]

/-- Witness for C9: eight units at 25 percent give a limit of two workers. -/
theorem cpu_cores_is_clamped_floor_witness :
    1 ≤ 8 ∧
    (MustangAnalyzer.init "/bin/mustang" "fasta" 8 25).cpu_cores
      = max 1 ⌊((8 : ℕ) : ℚ) * 25 / 100⌋ :=
  ⟨by norm_num,
   cpu_cores_is_clamped_floor "/bin/mustang" "fasta" 8 25 (by norm_num)⟩

/-- Claim C7: when no file of the input directory matches the `.pdb`
extension, `run_all_vs_all` logs a warning and returns cleanly: the whole
run equals the three directory creations, the enumeration, and the warning —
zero job results, and (made explicit in the second conjunct) no worker pool
is started and no external invocation occurs. -/
theorem no_inputs_warns_and_returns (a : MustangAnalyzer) (input_dir : String)
    (input_files : List PdbPath) (output_dir : String)
    (env : PdbPath → PdbPath → JobOutcome) (fs : FS)
    (h : globPdb input_files = []) :
    (run_all_vs_all a input_dir input_files output_dir env fs =
      ([Event.mkdirEvt output_dir,
        Event.mkdirEvt (pjoin output_dir "pdb_outputs"),
        Event.mkdirEvt (pjoin output_dir "pairwise_fastas"),
        Event.enumerate input_dir,
        Event.logWarning ("No PDB files found in " ++ input_dir)],
       [],
       ((fs.mkdir output_dir).mkdir (pjoin output_dir "pdb_outputs")).mkdir
         (pjoin output_dir "pairwise_fastas"))) ∧
    ∀ e ∈ (run_all_vs_all a input_dir input_files output_dir env fs).1,
      isInvoke e = false ∧ isPoolStart e = false := by
  have h1 : run_all_vs_all a input_dir input_files output_dir env fs =
      ([Event.mkdirEvt output_dir,
        Event.mkdirEvt (pjoin output_dir "pdb_outputs"),
        Event.mkdirEvt (pjoin output_dir "pairwise_fastas"),
        Event.enumerate input_dir,
        Event.logWarning ("No PDB files found in " ++ input_dir)],
       [],
       ((fs.mkdir output_dir).mkdir (pjoin output_dir "pdb_outputs")).mkdir
         (pjoin output_dir "pairwise_fastas")) := by
    simp only [run_all_vs_all]
    rw [if_pos (List.isEmpty_iff.mpr h)]
    rfl
  refine ⟨h1, ?_⟩
  rw [h1]
  intro e he
  simp only [List.mem_cons, List.not_mem_nil, or_false] at he
  rcases he with rfl | rfl | rfl | rfl | rfl <;> exact ⟨rfl, rfl⟩

/-- Witness for C7: an input directory holding only a non-PDB file produces
the clean no-jobs return. -/
theorem no_inputs_warns_and_returns_witness :
    run_all_vs_all defaultAnalyzer "in" [⟨"in", "notes", ".txt"⟩] "out"
        allSucceedEnv ⟨[], []⟩ =
      ([Event.mkdirEvt "out", Event.mkdirEvt (pjoin "out" "pdb_outputs"),
        Event.mkdirEvt (pjoin "out" "pairwise_fastas"), Event.enumerate "in",
        Event.logWarning ("No PDB files found in " ++ "in")],
       [],
       (((⟨[], []⟩ : FS).mkdir "out").mkdir (pjoin "out" "pdb_outputs")).mkdir
         (pjoin "out" "pairwise_fastas")) :=
  (no_inputs_warns_and_returns defaultAnalyzer "in" [⟨"in", "notes", ".txt"⟩]
    "out" allSucceedEnv ⟨[], []⟩ (by decide)).1

/-- Claim C10: on every call to `run_all_vs_all` — also when the input
directory yields zero PDB files — the first four recorded effects are the
creation of the output directory and of its two canonical subdirectories
followed by the enumeration of the input directory, and all three
directories exist in the final filesystem state. -/
theorem output_dirs_created_before_enumeration (a : MustangAnalyzer)
    (input_dir : String) (input_files : List PdbPath) (output_dir : String)
    (env : PdbPath → PdbPath → JobOutcome) (fs : FS) :
    (run_all_vs_all a input_dir input_files output_dir env fs).1.take 4 =
      [Event.mkdirEvt output_dir,
       Event.mkdirEvt (pjoin output_dir "pdb_outputs"),
       Event.mkdirEvt (pjoin output_dir "pairwise_fastas"),
       Event.enumerate input_dir] ∧
    output_dir ∈ (run_all_vs_all a input_dir input_files output_dir env fs).2.2.dirs ∧
    pjoin output_dir "pdb_outputs"
      ∈ (run_all_vs_all a input_dir input_files output_dir env fs).2.2.dirs ∧
    pjoin output_dir "pairwise_fastas"
      ∈ (run_all_vs_all a input_dir input_files output_dir env fs).2.2.dirs := by
  simp only [run_all_vs_all]
  split
  · exact ⟨rfl,
      mem_mkdir_of_mem _ _ _ (mem_mkdir_of_mem _ _ _ (mem_mkdir_self _ _)),
      mem_mkdir_of_mem _ _ _ (mem_mkdir_self _ _),
      mem_mkdir_self _ _⟩
  · refine ⟨rfl, ?_, ?_, ?_⟩ <;> rw [runJobs_dirs]
    · exact mem_mkdir_of_mem _ _ _ (mem_mkdir_of_mem _ _ _ (mem_mkdir_self _ _))
    · exact mem_mkdir_of_mem _ _ _ (mem_mkdir_self _ _)
    · exact mem_mkdir_self _ _

/-- Claim C8: for every pair job — whatever the analyzer configuration and
whatever the subprocess outcome — the worker performs exactly one external
invocation, and its argument vector is exactly `<executable> -i <file1>
<file2> -o <output_stem> -F <format>` with the stem joining the two stems in
job order. -/
theorem invocation_argument_shape (a : MustangAnalyzer) (p1 p2 : PdbPath)
    (od pd fd : String) (outcome : JobOutcome) (fs : FS) :
    (process_pair a p1 p2 od pd fd outcome fs).1.filter isInvoke =
      [Event.invoke [a.mustang_path, "-i", p1.toStr, p2.toStr,
        "-o", pjoin od (p1.stem ++ "_" ++ p2.stem), "-F", a.alignment_format]] := by
  unfold process_pair
  split
  · rename_i tr b fs1 hmatch
    have h := run_mustang_invoke_filter a p1 p2 od pd fd outcome fs
    rw [hmatch] at h
    exact h
  · rename_i tr e hmatch
    have h := run_mustang_invoke_filter a p1 p2 od pd fd outcome fs
    rw [hmatch] at h
    rw [List.filter_append, h]
    rfl

/-- Claim C6: a non-zero subprocess exit is contained inside the worker: for
every job the worker returns an ordinary `(false, unchanged files)` result
with the captured stderr logged — never a raised exception — and in the
concrete scenario C batch the (a, b) job alone fails while all four jobs are
still executed and the other three succeed. -/
theorem nonzero_exit_is_per_job_failure :
    (∀ (a : MustangAnalyzer) (p1 p2 : PdbPath) (od pd fd stderr : String)
       (produced : List String) (fs : FS),
       process_pair a p1 p2 od pd fd (.runs false stderr produced) fs =
         ([Event.invoke [a.mustang_path, "-i", p1.toStr, p2.toStr,
            "-o", pjoin od (p1.stem ++ "_" ++ p2.stem), "-F", a.alignment_format],
           Event.logError ("MUSTANG failed for " ++ p1.toStr ++ " and "
             ++ p2.toStr ++ ": " ++ stderr)],
          false, fs.addFiles produced)) ∧
    (run_all_vs_all defaultAnalyzer "in" [aFile, bFile] "out" oneFailsEnv
        ⟨[], []⟩).2.1 = [true, false, true, true] ∧
    Event.logError "MUSTANG failed for in/a.pdb and in/b.pdb: boom"
      ∈ (run_all_vs_all defaultAnalyzer "in" [aFile, bFile] "out" oneFailsEnv
          ⟨[], []⟩).1 :=
  ⟨fun a p1 p2 od pd fd stderr produced fs =>
     process_pair_nonzero_eq a p1 p2 od pd fd stderr produced fs,
   by decide, by decide⟩

/-- Claim C4 (the code masks the intended fatal condition): when the
executable is missing, `_run_mustang` raises `MustangError`, but
`_process_pair` catches it and converts it into an ordinary per-job failure,
so the batch is not aborted at first occurrence: with the executable missing
for every job, all four jobs of the two-file batch still run, each returning
`false`, and the caught error is merely logged. -/
theorem tool_not_available_is_masked :
    (run_all_vs_all defaultAnalyzer "in" [aFile, bFile] "out"
        (fun _ _ => JobOutcome.execMissing) ⟨[], []⟩).2.1
      = [false, false, false, false] ∧
    Event.logError
        ("Error processing in/a.pdb and in/a.pdb: MUSTANG executable not found at /bin/mustang")
      ∈ (run_all_vs_all defaultAnalyzer "in" [aFile, bFile] "out"
          (fun _ _ => JobOutcome.execMissing) ⟨[], []⟩).1 := by
  constructor
  · decide
  · decide

/-- Claim C2: the result aggregation over a completed batch sums the per-job
success flags (the actual count equals the sum of the boolean flags), emits a
record exactly when that sum differs from the expected N² job count, and
every record it emits is a warning, never an error. -/
theorem aggregation_sums_flags_and_warns (a : MustangAnalyzer)
    (input_dir : String) (input_files : List PdbPath) (output_dir : String)
    (env : PdbPath → PdbPath → JobOutcome) (fs : FS) :
    (aggregate_results
        (run_all_vs_all a input_dir input_files output_dir env fs).2.1
        ((globPdb input_files).length ^ 2)).1
      = ((run_all_vs_all a input_dir input_files output_dir env fs).2.1.map
          (fun b => if b then 1 else 0)).sum ∧
    ((aggregate_results
        (run_all_vs_all a input_dir input_files output_dir env fs).2.1
        ((globPdb input_files).length ^ 2)).2 ≠ [] ↔
      (aggregate_results
        (run_all_vs_all a input_dir input_files output_dir env fs).2.1
        ((globPdb input_files).length ^ 2)).1 ≠ (globPdb input_files).length ^ 2) ∧
    ∀ e ∈ (aggregate_results
        (run_all_vs_all a input_dir input_files output_dir env fs).2.1
        ((globPdb input_files).length ^ 2)).2, e.1 = LogLevel.warning := by
  have key : ∀ (results : List Bool) (expected : ℕ),
      (aggregate_results results expected).1
        = (results.map (fun b => if b then 1 else 0)).sum ∧
      ((aggregate_results results expected).2 ≠ [] ↔
        (aggregate_results results expected).1 ≠ expected) ∧
      ∀ e ∈ (aggregate_results results expected).2, e.1 = LogLevel.warning := by
    intro results expected
    refine ⟨countTrue_eq_sumFlags results, ?_, ?_⟩
    · unfold aggregate_results
      dsimp only
      split
      · rename_i hEq
        simp [hEq]
      · rename_i hNe
        simp [hNe]
    · intro e he
      unfold aggregate_results at he
      dsimp only at he
      split at he
      · simp at he
      · simp only [List.mem_cons, List.not_mem_nil, or_false] at he
        rw [he]
  exact key _ _

/-- Witness for C2: in scenario C the batch reports three successes against
an expected count of four, so the aggregation emits its (warning-level)
record. -/
theorem aggregation_sums_flags_and_warns_witness :
    (aggregate_results
        (run_all_vs_all defaultAnalyzer "in" [aFile, bFile] "out" oneFailsEnv
          ⟨[], []⟩).2.1
        ((globPdb [aFile, bFile]).length ^ 2)).2 ≠ [] :=
  (aggregation_sums_flags_and_warns defaultAnalyzer "in" [aFile, bFile] "out"
    oneFailsEnv ⟨[], []⟩).2.1.mpr (by decide)

/-- Claim C5: strict reconciliation of a pair job whose subprocess exited 0.
The job is reported successful if and only if both the alignment artifact and
the coordinate artifact named by the job's identifier stem exist after the
invocation, in which case both are moved into the canonical per-kind output
directories under the pair identifier; when either is missing the job returns
false, the diagnostic is logged, and the filesystem is exactly the
post-invocation state — no move is performed, so nothing is placed in either
canonical output directory by the worker. -/
theorem strict_mode_requires_both_artifacts (a : MustangAnalyzer)
    (p1 p2 : PdbPath) (od pd fd stderr : String) (produced : List String)
    (fs : FS) :
    (((fs.addFiles produced).pathExists
         (pjoin od (p1.stem ++ "_" ++ p2.stem) ++ "." ++ a.output_extension) ∧
      (fs.addFiles produced).pathExists
         (pjoin od (p1.stem ++ "_" ++ p2.stem) ++ ".pdb")) →
       (run_mustang a p1 p2 od pd fd (.runs true stderr produced) fs).2 =
         .ok (true,
           ((fs.addFiles produced).move
              (pjoin od (p1.stem ++ "_" ++ p2.stem) ++ "." ++ a.output_extension)
              (pjoin fd (p1.stem ++ "_" ++ p2.stem ++ ".fasta"))).move
             (pjoin od (p1.stem ++ "_" ++ p2.stem) ++ ".pdb")
             (pjoin pd (p1.stem ++ "_" ++ p2.stem ++ ".pdb")))) ∧
    (¬((fs.addFiles produced).pathExists
         (pjoin od (p1.stem ++ "_" ++ p2.stem) ++ "." ++ a.output_extension) ∧
       (fs.addFiles produced).pathExists
         (pjoin od (p1.stem ++ "_" ++ p2.stem) ++ ".pdb")) →
       ((run_mustang a p1 p2 od pd fd (.runs true stderr produced) fs).2 =
          .ok (false, fs.addFiles produced) ∧
        Event.logError ("MUSTANG did not produce the expected output files for "
            ++ pjoin od (p1.stem ++ "_" ++ p2.stem))
          ∈ (run_mustang a p1 p2 od pd fd (.runs true stderr produced) fs).1)) ∧
    ∀ (b : Bool) (fs2 : FS),
      (run_mustang a p1 p2 od pd fd (.runs true stderr produced) fs).2
          = .ok (b, fs2) →
        (b = true ↔
          ((fs.addFiles produced).pathExists
             (pjoin od (p1.stem ++ "_" ++ p2.stem) ++ "." ++ a.output_extension) ∧
           (fs.addFiles produced).pathExists
             (pjoin od (p1.stem ++ "_" ++ p2.stem) ++ ".pdb"))) := by
  by_cases hP :
      ((fs.addFiles produced).pathExists
         (pjoin od (p1.stem ++ "_" ++ p2.stem) ++ "." ++ a.output_extension) ∧
       (fs.addFiles produced).pathExists
         (pjoin od (p1.stem ++ "_" ++ p2.stem) ++ ".pdb"))
  · refine ⟨fun _ => ?_, fun hc => absurd hP hc, fun b fs2 hb => ?_⟩
    · rw [run_mustang_success_eq, if_pos hP]
    · rw [run_mustang_success_eq, if_pos hP] at hb
      simp only [Except.ok.injEq, Prod.mk.injEq] at hb
      simp [← hb.1, hP]
  · refine ⟨fun hc => absurd hc hP, fun _ => ⟨?_, ?_⟩, fun b fs2 hb => ?_⟩
    · rw [run_mustang_success_eq, if_neg hP]
    · rw [run_mustang_success_eq, if_neg hP]
      simp
    · rw [run_mustang_success_eq, if_neg hP] at hb
      simp only [Except.ok.injEq, Prod.mk.injEq] at hb
      constructor
      · intro hbt
        rw [hbt] at hb
        exact absurd hb.1.symm (by simp)
      · intro h2
        exact absurd h2 hP

/-- Witness for C5: a job whose invocation produced the alignment file but
not the coordinate file is reported failed, with the post-invocation
filesystem returned unchanged. -/
theorem strict_mode_requires_both_artifacts_witness :
    (run_mustang defaultAnalyzer aFile bFile "out" "out/pdb_outputs"
        "out/pairwise_fastas" (.runs true "" ["out/a_b.afasta"]) ⟨[], []⟩).2 =
      .ok (false, (FS.mk [] []).addFiles ["out/a_b.afasta"]) ∧
    Event.logError ("MUSTANG did not produce the expected output files for "
        ++ pjoin "out" ("a" ++ "_" ++ "b"))
      ∈ (run_mustang defaultAnalyzer aFile bFile "out" "out/pdb_outputs"
          "out/pairwise_fastas" (.runs true "" ["out/a_b.afasta"]) ⟨[], []⟩).1 :=
  (strict_mode_requires_both_artifacts defaultAnalyzer aFile bFile "out"
    "out/pdb_outputs" "out/pairwise_fastas" "" ["out/a_b.afasta"]
    ⟨[], []⟩).2.1 (by decide)

/-- Claim C3 (amended): for every successful pair job on inputs with stems
id1 and id2, the alignment artifact is placed in the canonical alignment
output directory under the fixed name `id1_id2.fasta` — the destination
extension is the literal string `fasta` for every configuration, so it is
the conventional extension of the requested alignment format only when that
format is the default `fasta`. -/
theorem successful_job_places_alignment_as_fasta (a : MustangAnalyzer)
    (p1 p2 : PdbPath) (od pd fd : String) (outcome : JobOutcome) (fs : FS)
    (h : (process_pair a p1 p2 od pd fd outcome fs).2.1 = true) :
    pjoin fd (p1.stem ++ "_" ++ p2.stem ++ ".fasta")
      ∈ (process_pair a p1 p2 od pd fd outcome fs).2.2.files := by
  cases outcome with
  | execMissing => exact absurd h (by simp [process_pair, run_mustang])
  | runs exitZero stderr produced =>
      cases exitZero with
      | false =>
          rw [process_pair_nonzero_eq] at h
          exact absurd h (by simp)
      | true =>
          by_cases hP :
              ((fs.addFiles produced).pathExists
                 (pjoin od (p1.stem ++ "_" ++ p2.stem) ++ "." ++ a.output_extension) ∧
               (fs.addFiles produced).pathExists
                 (pjoin od (p1.stem ++ "_" ++ p2.stem) ++ ".pdb"))
          · unfold process_pair
            rw [run_mustang_success_eq, if_pos hP]
            dsimp only
            show pjoin fd (p1.stem ++ "_" ++ p2.stem ++ ".fasta") ∈
              (((fs.addFiles produced).move
                  (pjoin od (p1.stem ++ "_" ++ p2.stem) ++ "." ++ a.output_extension)
                  (pjoin fd (p1.stem ++ "_" ++ p2.stem ++ ".fasta"))).move
                (pjoin od (p1.stem ++ "_" ++ p2.stem) ++ ".pdb")
                (pjoin pd (p1.stem ++ "_" ++ p2.stem ++ ".pdb"))).files
            have hfa : (pjoin fd (p1.stem ++ "_" ++ p2.stem ++ ".fasta")).data.getLast?
                = some 'a' :=
              pjoin_data_getLast? fd _ 'a'
                (data_getLast?_append (p1.stem ++ "_" ++ p2.stem) ".fasta" 'a' rfl)
            have hb1 : (pjoin od (p1.stem ++ "_" ++ p2.stem) ++ ".pdb").data.getLast?
                = some 'b' :=
              data_getLast?_append (pjoin od (p1.stem ++ "_" ++ p2.stem)) ".pdb" 'b' rfl
            have hb2 : (pjoin pd (p1.stem ++ "_" ++ p2.stem ++ ".pdb")).data.getLast?
                = some 'b' :=
              pjoin_data_getLast? pd _ 'b'
                (data_getLast?_append (p1.stem ++ "_" ++ p2.stem) ".pdb" 'b' rfl)
            unfold FS.move
            dsimp only
            apply List.mem_append_left
            apply List.mem_filter.mpr
            refine ⟨List.mem_append_right _ (by simp), ?_⟩
            simp only [Bool.and_eq_true, bne_iff_ne]
            exact ⟨ne_of_last_char _ _ 'a' 'b' hfa hb1 (by decide),
                   ne_of_last_char _ _ 'a' 'b' hfa hb2 (by decide)⟩
          · unfold process_pair at h
            rw [run_mustang_success_eq, if_neg hP] at h
            exact absurd h (by simp)

/-- Witness for C3 (amended): a successful default-format job on stems a and
b leaves `out/pairwise_fastas/a_b.fasta` in the final filesystem. -/
theorem successful_job_places_alignment_as_fasta_witness :
    pjoin "out/pairwise_fastas" ("a" ++ "_" ++ "b" ++ ".fasta")
      ∈ (process_pair defaultAnalyzer aFile bFile "out" "out/pdb_outputs"
          "out/pairwise_fastas" (allSucceedEnv aFile bFile) ⟨[], []⟩).2.2.files :=
  successful_job_places_alignment_as_fasta defaultAnalyzer aFile bFile "out"
    "out/pdb_outputs" "out/pairwise_fastas" (allSucceedEnv aFile bFile)
    ⟨[], []⟩ (by decide)

/-- Counterexample to C3 as stated: with the requested alignment format
`msf`, a pair job succeeds (the tool produced `out/a_b.msf` and
`out/a_b.pdb`), yet the canonical alignment directory receives
`a_b.fasta`, not `a_b.msf` — the artifact is not named with the extension
conventional for the requested format. -/
theorem requested_format_extension_not_used :
    (process_pair (MustangAnalyzer.init "/bin/mustang" "msf" 4 25)
        aFile bFile "out" "out/pdb_outputs" "out/pairwise_fastas"
        (JobOutcome.runs true "" ["out/a_b.msf", "out/a_b.pdb"])
        ⟨[], []⟩).2.1 = true ∧
    "out/pairwise_fastas/a_b.msf" ∉
      (process_pair (MustangAnalyzer.init "/bin/mustang" "msf" 4 25)
        aFile bFile "out" "out/pdb_outputs" "out/pairwise_fastas"
        (JobOutcome.runs true "" ["out/a_b.msf", "out/a_b.pdb"])
        ⟨[], []⟩).2.2.files ∧
    "out/pairwise_fastas/a_b.fasta" ∈
      (process_pair (MustangAnalyzer.init "/bin/mustang" "msf" 4 25)
        aFile bFile "out" "out/pdb_outputs" "out/pairwise_fastas"
        (JobOutcome.runs true "" ["out/a_b.msf", "out/a_b.pdb"])
        ⟨[], []⟩).2.2.files := by
  refine ⟨?_, ?_, ?_⟩ <;> decide

end Mustang
